import Mathlib

/-!
Shallow embedding of the orders ETL pipeline (src/orders_etl.py).

The pipeline has three stages over tabular data:
1. Ingest & Normalize: parse timestamp/numeric columns of raw order rows
   (unparseable text becomes null), compute the derived `late_delivery`
   and `dt` columns, and overwrite the silver artifacts.
2. Enrich: left outer join of normalized orders to restaurants on
   `restaurant_id`.
3. Aggregate: filter to `status == DELIVERED`, group by
   (dt, restaurant_id, name, cuisine, city), compute count / sum / avg
   aggregates and the derived `late_rate` column.

Nullable columns are `Option` values. The engine's SQL semantics are
embedded explicitly: three-valued boolean logic for the `when` condition,
null-propagating arithmetic and comparison, aggregates that skip nulls
(and are null on an empty set of non-null inputs), and division that is
null on a zero divisor. Timestamps are unix seconds (`Int`); the
timestamp-to-date cast is flooring division by 86400 (days since epoch).
Text parsing (`to_timestamp`, numeric casts) is an engine capability the
script consumes, so it is a parameter (`ParseFuns`): every theorem holds
for an arbitrary parse behavior.
-/

/-- A raw order row as read from CSV: every field is nullable text.
Columns: order_ts, delivered_ts, order_value, promised_mins, status,
restaurant_id, city. -/
structure RawOrder where
  order_ts : Option String
  delivered_ts : Option String
  order_value : Option String
  promised_mins : Option String
  status : Option String
  restaurant_id : Option String
  city : Option String
deriving DecidableEq, Repr

/-- A restaurant row: restaurant_id, name, cuisine; the script applies no
transformation to restaurants. -/
structure Restaurant where
  restaurant_id : Option String
  name : Option String
  cuisine : Option String
deriving DecidableEq, Repr

/-- A normalized (silver) order row: timestamps parsed to unix seconds,
order_value to a numeric, promised_mins to an integer, plus the derived
`late_delivery` (non-null 0/1) and `dt` (date = days since epoch) columns. -/
structure NormOrder where
  order_ts : Option Int
  delivered_ts : Option Int
  order_value : Option ℚ
  promised_mins : Option Int
  status : Option String
  restaurant_id : Option String
  city : Option String
  late_delivery : Int
  dt : Option Int
deriving DecidableEq, Repr

/-- The engine's text-parsing capabilities used by the `withColumn` casts:
`to_timestamp`, cast to double, cast to int. Each returns null on
unparseable input by returning `none`. -/
structure ParseFuns where
  ts : String → Option Int
  dbl : String → Option ℚ
  int : String → Option Int

/-- SQL three-valued AND: false dominates null. -/
def sqlAnd : Option Bool → Option Bool → Option Bool
  | some false, _ => some false
  | _, some false => some false
  | some true, some true => some true
  | _, _ => none

/-- SQL equality of a nullable column with a non-null literal: null input
gives null. -/
def sqlEqLit (a : Option String) (lit : String) : Option Bool :=
  a.map (fun s => s == lit)

/-- Null-propagating subtraction of two nullable integer columns. -/
def sqlSub (a b : Option Int) : Option Int :=
  match a, b with
  | some x, some y => some (x - y)
  | _, _ => none

/-- Null-propagating strict greater-than on nullable integer columns. -/
def sqlGt (a b : Option Int) : Option Bool :=
  match a, b with
  | some x, some y => some (decide (x > y))
  | _, _ => none

/-- `when(cond, 1).otherwise(0)`: the branch is taken only when the
condition is non-null true; a null or false condition falls through to
the otherwise value. -/
def sqlWhen10 (cond : Option Bool) : Int :=
  if cond = some true then 1 else 0

/-- Cast of a timestamp (unix seconds) to a date (days since epoch):
flooring division by 86400. -/
def castDate (t : Int) : Int := Int.fdiv t 86400

/-- Lift a parse function over a nullable text column: null stays null. -/
def parseCol {α : Type} (f : String → Option α) (c : Option String) : Option α :=
  c.bind f

/-- The `late_delivery` condition of the script:
`(status == "DELIVERED") & (unix_timestamp(delivered_ts) - unix_timestamp(order_ts) > promised_mins * 60)`
over already-parsed columns, in three-valued logic. -/
def lateCond (status : Option String) (delivered order_ts : Option Int)
    (promised : Option Int) : Option Bool :=
  sqlAnd (sqlEqLit status "DELIVERED")
    (sqlGt (sqlSub delivered order_ts) (promised.map (fun p => p * 60)))

/-- Normalization of one order row, mirroring the chained `withColumn`
calls: parse order_ts and delivered_ts, cast order_value and
promised_mins, compute late_delivery from the parsed columns, derive dt
from the parsed order_ts. -/
def normalizeOrder (P : ParseFuns) (r : RawOrder) : NormOrder :=
  let ots := parseCol P.ts r.order_ts
  let dts := parseCol P.ts r.delivered_ts
  let ov := parseCol P.dbl r.order_value
  let pm := parseCol P.int r.promised_mins
  { order_ts := ots
    delivered_ts := dts
    order_value := ov
    promised_mins := pm
    status := r.status
    restaurant_id := r.restaurant_id
    city := r.city
    late_delivery := sqlWhen10 (lateCond r.status dts ots pm)
    dt := ots.map castDate }

/-- The normalized orders collection: the transformation applied row by
row; no row is dropped or added. -/
def normalizeOrders (P : ParseFuns) (rows : List RawOrder) : List NormOrder :=
  rows.map (normalizeOrder P)

/-- An enriched row: a normalized order together with its (possibly
absent) matched restaurant from the left outer join. -/
structure EnrichedOrder where
  o : NormOrder
  r : Option Restaurant
deriving DecidableEq, Repr

/-- The join condition `col("o.restaurant_id") == col("r.restaurant_id")`:
SQL equality, so a null key on either side never matches. -/
def joinMatch (o : NormOrder) (r : Restaurant) : Bool :=
  match o.restaurant_id, r.restaurant_id with
  | some a, some b => a == b
  | _, _ => false

/-- Left-join expansion of a single order row: if no restaurant matches,
the order survives once with null restaurant fields; otherwise one output
row per matching restaurant (fan-out on duplicates). -/
def joinOne (rs : List Restaurant) (o : NormOrder) : List EnrichedOrder :=
  match rs.filter (joinMatch o) with
  | [] => [⟨o, none⟩]
  | m => m.map (fun r => ⟨o, some r⟩)

/-- The Enrich stage: left outer join of orders to restaurants on
restaurant_id. -/
def orders_enriched (os : List NormOrder) (rs : List Restaurant) :
    List EnrichedOrder :=
  os.bind (joinOne rs)

/-- Grouping key of the Aggregate stage:
(dt, o.restaurant_id, r.name, r.cuisine, o.city). -/
abbrev GKey := Option Int × Option String × Option String × Option String × Option String

/-- The grouping key of an enriched row; restaurant fields are null when
the join found no match. -/
def keyOf (e : EnrichedOrder) : GKey :=
  (e.o.dt, e.o.restaurant_id, e.r.bind (fun r => r.name),
   e.r.bind (fun r => r.cuisine), e.o.city)

/-- A gold daily-restaurant-metrics row. -/
structure MetricRow where
  dt : Option Int
  restaurant_id : Option String
  name : Option String
  cuisine : Option String
  city : Option String
  orders_delivered : Int
  gmv : Option ℚ
  avg_delivery_mins : Option ℚ
  late_count : Option Int
  late_rate : Option ℚ
deriving DecidableEq, Repr

/-- SQL `sum` over a nullable numeric column: nulls are skipped; the sum
of zero non-null values is null. -/
def sqlSumQ (l : List (Option ℚ)) : Option ℚ :=
  match l.filterMap id with
  | [] => none
  | vs => some vs.sum

/-- SQL `sum` over the non-null `late_delivery` column: null only on an
empty group. -/
def sqlSumI (l : List Int) : Option Int :=
  match l with
  | [] => none
  | vs => some vs.sum

/-- SQL `avg` over a nullable numeric column: nulls are excluded from
both numerator and denominator; the mean of zero non-null values is null. -/
def sqlAvg (l : List (Option ℚ)) : Option ℚ :=
  match l.filterMap id with
  | [] => none
  | vs => some (vs.sum / (vs.length : ℚ))

/-- SQL division of a nullable numerator by an integer denominator:
null numerator or zero denominator gives null. -/
def sqlDiv (a : Option Int) (b : Int) : Option ℚ :=
  if b = 0 then none else a.map (fun x => (x : ℚ) / (b : ℚ))

/-- The per-row aggregand of `avg_delivery_mins`:
`(unix_timestamp(delivered_ts) - unix_timestamp(order_ts)) / 60.0`. -/
def deliveryMins (e : EnrichedOrder) : Option ℚ :=
  (sqlSub e.o.delivered_ts e.o.order_ts).map (fun s => (s : ℚ) / 60)

/-- Aggregation of one group: count(lit(1)), sum(order_value),
avg(duration/60.0), sum(late_delivery), then the derived
`late_rate = late_count / orders_delivered`. -/
def aggGroup (k : GKey) (g : List EnrichedOrder) : MetricRow :=
  let cnt : Int := g.length
  let lc := sqlSumI (g.map (fun e => e.o.late_delivery))
  { dt := k.1
    restaurant_id := k.2.1
    name := k.2.2.1
    cuisine := k.2.2.2.1
    city := k.2.2.2.2
    orders_delivered := cnt
    gmv := sqlSumQ (g.map (fun e => e.o.order_value))
    avg_delivery_mins := sqlAvg (g.map deliveryMins)
    late_count := lc
    late_rate := sqlDiv lc cnt }

/-- The `where(col("status") == "DELIVERED")` filter: a row is kept only
when the three-valued condition is non-null true. -/
def deliveredOnly (l : List EnrichedOrder) : List EnrichedOrder :=
  l.filter (fun e => sqlEqLit e.o.status "DELIVERED" == some true)

/-- The rows of one group: all filtered rows sharing the key. `groupBy`
keys on values including null; null keys form groups like any other. -/
def groupRows (l : List EnrichedOrder) (k : GKey) : List EnrichedOrder :=
  l.filter (fun e => keyOf e == k)

/-- The Aggregate stage: filter to delivered rows, group by
(dt, restaurant_id, name, cuisine, city), aggregate each group. -/
def daily_rest_metrics (l : List EnrichedOrder) : List MetricRow :=
  let f := deliveredOnly l
  ((f.map keyOf).dedup).map (fun k => aggGroup k (groupRows f k))

/-- The durable storage tiers the pipeline reads and writes. -/
structure Store where
  bronzeOrders : List RawOrder
  bronzeRestaurants : List Restaurant
  silverOrders : List NormOrder
  silverRestaurants : List Restaurant
  goldMetrics : List MetricRow
deriving DecidableEq, Repr

/-- The Ingest & Normalize stage as a state transformer: read the bronze
inputs, overwrite (full replace) both silver artifacts with the
normalized collections. Bronze inputs are immutable. -/
def runIngest (P : ParseFuns) (s : Store) : Store :=
  { s with
    silverOrders := normalizeOrders P s.bronzeOrders
    silverRestaurants := s.bronzeRestaurants }

/-- The full pipeline on a store: ingest/normalize, then enrich from the
silver artifacts, then aggregate and overwrite the gold artifact. -/
def runPipeline (P : ParseFuns) (s : Store) : Store :=
  let s1 := runIngest P s
  let enriched := orders_enriched s1.silverOrders s1.silverRestaurants
  { s1 with goldMetrics := daily_rest_metrics enriched }

/-- A finite parse table for evaluating the pipeline on closed inputs:
the text values used by the concrete examples, mapped to their numbers. -/
def demoTable : List (String × Int) :=
  [("43200", 43200), ("45060", 45060), ("45000", 45000), ("30", 30),
   ("10", 10), ("20", 20), ("25", 25), ("86400", 86400)]

/-- A concrete parse behavior for evaluating the pipeline on closed
inputs: lookup in `demoTable`, null on anything else. -/
def natParse : ParseFuns :=
  { ts := fun s => (demoTable.find? (fun p => p.1 == s)).map Prod.snd
    dbl := fun s => ((demoTable.find? (fun p => p.1 == s)).map Prod.snd).map (fun i => (i : ℚ))
    int := fun s => (demoTable.find? (fun p => p.1 == s)).map Prod.snd }

/-- Three-valued AND is non-null true exactly when both operands are. -/
theorem sqlAnd_eq_true_iff :
    ∀ a b : Option Bool, sqlAnd a b = some true ↔ (a = some true ∧ b = some true) := by
  decide

/-- The 1/0 conditional yields 0 on every condition that is not
non-null true. -/
theorem sqlWhen10_eq_zero : ∀ c : Option Bool, c ≠ some true → sqlWhen10 c = 0 := by
  decide

/-- C1: for an order whose status is DELIVERED and whose delivered_ts,
order_ts and promised_mins all parsed, late_delivery = 1 iff the elapsed
seconds strictly exceed promised_mins × 60; exact equality yields 0. -/
theorem late_delivery_strict_threshold (P : ParseFuns) (r : RawOrder)
    (a b p : Int)
    (hs : r.status = some "DELIVERED")
    (ho : parseCol P.ts r.order_ts = some a)
    (hd : parseCol P.ts r.delivered_ts = some b)
    (hp : parseCol P.int r.promised_mins = some p) :
    ((normalizeOrder P r).late_delivery = 1 ↔ b - a > p * 60) ∧
    (b - a = p * 60 → (normalizeOrder P r).late_delivery = 0) := by
  have hld : (normalizeOrder P r).late_delivery
      = sqlWhen10 (lateCond r.status (parseCol P.ts r.delivered_ts)
          (parseCol P.ts r.order_ts) (parseCol P.int r.promised_mins)) := rfl
  rw [hld, hs, ho, hd, hp]
  by_cases hgt : b - a > p * 60
  · constructor
    · simp [lateCond, sqlEqLit, sqlSub, sqlGt, sqlAnd, sqlWhen10, hgt]
    · intro heq
      omega
  · constructor
    · simp [lateCond, sqlEqLit, sqlSub, sqlGt, sqlAnd, sqlWhen10, hgt]
    · intro _
      simp [lateCond, sqlEqLit, sqlSub, sqlGt, sqlAnd, sqlWhen10, hgt]

/-- Witness for C1: the spec's example order (order 12:00:00 = 43200 s,
delivered 12:31:00 = 45060 s, promised 30 min) is late; with delivery at
12:30:00 = 45000 s, elapsed equals the promise exactly and it is not
late. -/
theorem late_delivery_strict_threshold_witness :
    (normalizeOrder natParse
      ⟨some "43200", some "45060", some "25", some "30", some "DELIVERED",
       some "r1", some "NYC"⟩).late_delivery = 1 ∧
    (normalizeOrder natParse
      ⟨some "43200", some "45000", some "25", some "30", some "DELIVERED",
       some "r1", some "NYC"⟩).late_delivery = 0 := by
  constructor
  · exact ((late_delivery_strict_threshold natParse
      ⟨some "43200", some "45060", some "25", some "30", some "DELIVERED",
       some "r1", some "NYC"⟩ 43200 45060 30
      rfl (by decide) (by decide) (by decide)).1).mpr (by decide)
  · exact (late_delivery_strict_threshold natParse
      ⟨some "43200", some "45000", some "25", some "30", some "DELIVERED",
       some "r1", some "NYC"⟩ 43200 45000 30
      rfl (by decide) (by decide) (by decide)).2 (by decide)

/-- C2: an order whose status is not DELIVERED (including a null status)
gets late_delivery = 0, whatever the timestamp and minute columns hold:
the three-valued condition is false or null, never true. -/
theorem late_delivery_not_delivered_zero (P : ParseFuns) (r : RawOrder)
    (hs : r.status ≠ some "DELIVERED") :
    (normalizeOrder P r).late_delivery = 0 := by
  have hld : (normalizeOrder P r).late_delivery
      = sqlWhen10 (lateCond r.status (parseCol P.ts r.delivered_ts)
          (parseCol P.ts r.order_ts) (parseCol P.int r.promised_mins)) := rfl
  rw [hld]
  apply sqlWhen10_eq_zero
  intro htrue
  rcases (sqlAnd_eq_true_iff _ _).mp htrue with ⟨h1, _⟩
  cases hstat : r.status with
  | none => rw [hstat] at h1; simp [sqlEqLit] at h1
  | some s =>
      rw [hstat] at h1
      simp [sqlEqLit] at h1
      exact hs (by rw [hstat, h1])

/-- Witness for C2: a CANCELLED order with no delivered timestamp and a
huge elapsed time still gets late_delivery = 0. -/
theorem late_delivery_not_delivered_zero_witness :
    (normalizeOrder natParse
      ⟨some "43200", none, some "25", some "30", some "CANCELLED",
       some "r1", some "NYC"⟩).late_delivery = 0 :=
  late_delivery_not_delivered_zero natParse
    ⟨some "43200", none, some "25", some "30", some "CANCELLED",
     some "r1", some "NYC"⟩ (by decide)

/-- C9: a DELIVERED order with a null (unparsed) delivered_ts, order_ts
or promised_mins gets late_delivery = 0 — the null comparison makes the
condition null, which falls to the otherwise branch; moreover
late_delivery is total, always 0 or 1, on every row. -/
theorem late_delivery_null_safe (P : ParseFuns) (r : RawOrder)
    (_hs : r.status = some "DELIVERED")
    (hn : parseCol P.ts r.delivered_ts = none ∨ parseCol P.ts r.order_ts = none ∨
          parseCol P.int r.promised_mins = none) :
    (normalizeOrder P r).late_delivery = 0 ∧
    ∀ r' : RawOrder, (normalizeOrder P r').late_delivery = 0 ∨
      (normalizeOrder P r').late_delivery = 1 := by
  constructor
  · have hld : (normalizeOrder P r).late_delivery
        = sqlWhen10 (lateCond r.status (parseCol P.ts r.delivered_ts)
            (parseCol P.ts r.order_ts) (parseCol P.int r.promised_mins)) := rfl
    rw [hld]
    apply sqlWhen10_eq_zero
    intro htrue
    rcases (sqlAnd_eq_true_iff _ _).mp htrue with ⟨_, h2⟩
    rcases hn with h | h | h <;>
      · rw [h] at h2
        simp [sqlGt, sqlSub] at h2
  · intro r'
    by_cases h : lateCond r'.status (parseCol P.ts r'.delivered_ts)
        (parseCol P.ts r'.order_ts) (parseCol P.int r'.promised_mins) = some true
    · right
      show sqlWhen10 _ = 1
      rw [h]
      rfl
    · left
      exact sqlWhen10_eq_zero _ h

/-- Witness for C9: a DELIVERED order with a null delivered timestamp has
late_delivery = 0. -/
theorem late_delivery_null_safe_witness :
    (normalizeOrder natParse
      ⟨some "43200", none, some "25", some "30", some "DELIVERED",
       some "r1", some "NYC"⟩).late_delivery = 0 :=
  (late_delivery_null_safe natParse
    ⟨some "43200", none, some "25", some "30", some "DELIVERED",
     some "r1", some "NYC"⟩ rfl (Or.inl (by decide))).1

/-- C7: dt is the date cast of the parsed order timestamp — some date
when the timestamp parsed, null when it did not — and normalization
keeps every row: each raw row yields its normalized row, none dropped. -/
theorem dt_partition_derivation (P : ParseFuns) (r : RawOrder)
    (rows : List RawOrder) :
    (∀ t : Int, parseCol P.ts r.order_ts = some t →
      (normalizeOrder P r).dt = some (castDate t)) ∧
    (parseCol P.ts r.order_ts = none → (normalizeOrder P r).dt = none) ∧
    (normalizeOrders P rows).length = rows.length ∧
    (r ∈ rows → normalizeOrder P r ∈ normalizeOrders P rows) := by
  refine ⟨?_, ?_, ?_, ?_⟩
  · intro t ht
    show (parseCol P.ts r.order_ts).map castDate = some (castDate t)
    rw [ht]
    rfl
  · intro ht
    show (parseCol P.ts r.order_ts).map castDate = none
    rw [ht]
    rfl
  · exact List.length_map rows (normalizeOrder P)
  · intro hr
    exact List.mem_map_of_mem (normalizeOrder P) hr

/-- Witness for C7: a row whose order_ts parses to 43200 s gets
dt = day 0; a row with unparseable order_ts gets a null dt; a
two-row input produces a two-row output. -/
theorem dt_partition_derivation_witness :
    (normalizeOrder natParse
      ⟨some "43200", none, none, none, some "PLACED", none, none⟩).dt = some 0 ∧
    (normalizeOrder natParse
      ⟨some "not-a-time", none, none, none, some "PLACED", none, none⟩).dt = none ∧
    (normalizeOrders natParse
      [⟨some "43200", none, none, none, some "PLACED", none, none⟩,
       ⟨some "not-a-time", none, none, none, some "PLACED", none, none⟩]).length = 2 := by
  refine ⟨?_, ?_, ?_⟩
  · exact (dt_partition_derivation natParse
      ⟨some "43200", none, none, none, some "PLACED", none, none⟩ []).1 43200 (by decide)
  · exact (dt_partition_derivation natParse
      ⟨some "not-a-time", none, none, none, some "PLACED", none, none⟩ []).2.1 (by decide)
  · exact (dt_partition_derivation natParse
      ⟨some "43200", none, none, none, some "PLACED", none, none⟩
      [⟨some "43200", none, none, none, some "PLACED", none, none⟩,
       ⟨some "not-a-time", none, none, none, some "PLACED", none, none⟩]).2.2.1

/-- C8: Ingest & Normalize is idempotent on the store: a second run over
the same (immutable) bronze inputs overwrites the silver artifacts with
exactly the same content, because the transformation is a deterministic
function of the bronze inputs and the write is a full replace. -/
theorem ingest_idempotent (P : ParseFuns) (s : Store) :
    runIngest P (runIngest P s) = runIngest P s := rfl

/-- Witness for C8 at a concrete store. -/
theorem ingest_idempotent_witness :
    runIngest natParse (runIngest natParse
      ⟨[⟨some "43200", none, none, none, some "PLACED", none, none⟩], [], [], [], []⟩)
    = runIngest natParse
      ⟨[⟨some "43200", none, none, none, some "PLACED", none, none⟩], [], [], [], []⟩ :=
  ingest_idempotent natParse
    ⟨[⟨some "43200", none, none, none, some "PLACED", none, none⟩], [], [], [], []⟩

/-- The left-join expansion of one order has one row per matching
restaurant, and one single row when nothing matches. -/
theorem joinOne_length (rs : List Restaurant) (o : NormOrder) :
    (joinOne rs o).length = max 1 (rs.countP (joinMatch o)) := by
  rw [List.countP_eq_length_filter]
  cases h : rs.filter (joinMatch o) with
  | nil => simp [joinOne, h]
  | cons a t =>
      simp only [joinOne, h, List.length_map, List.length_cons]
      omega

/-- Every row of the left-join expansion of `o` carries `o` itself. -/
theorem joinOne_o (rs : List Restaurant) (o : NormOrder) :
    ∀ e ∈ joinOne rs o, e.o = o := by
  intro e he
  unfold joinOne at he
  cases h : rs.filter (joinMatch o) with
  | nil =>
      rw [h] at he
      simp at he
      rw [he]
  | cons a t =>
      rw [h] at he
      simp only [List.mem_map] at he
      rcases he with ⟨r, _, rfl⟩
      rfl

/-- Counting rows of a join expansion that carry a given order. -/
theorem countP_joinOne (rs : List Restaurant) (o' o : NormOrder) :
    (joinOne rs o').countP (fun e => e.o == o)
      = if o' = o then (joinOne rs o').length else 0 := by
  by_cases h : o' = o
  · subst h
    rw [if_pos rfl]
    apply List.countP_eq_length.mpr
    intro e he
    simp [joinOne_o rs o' e he]
  · rw [if_neg h]
    apply List.countP_eq_zero.mpr
    intro e he
    simp [joinOne_o rs o' e he]
    exact h

/-- C4: the left join preserves order multiplicity: rows of the enriched
collection carrying a given order number (occurrences of the order) ×
max(1, number of matching restaurants) — an unmatched order survives
exactly once, with null restaurant fields, and duplicate restaurant
identifiers fan the order out k times; every order appears. -/
theorem left_join_multiplicity (os : List NormOrder) (rs : List Restaurant)
    (o : NormOrder) :
    ((orders_enriched os rs).countP (fun e => e.o == o))
      = (os.countP (fun x => x == o)) * max 1 (rs.countP (joinMatch o)) ∧
    (rs.countP (joinMatch o) = 0 → joinOne rs o = [⟨o, none⟩]) ∧
    (o ∈ os → ∃ e ∈ orders_enriched os rs, e.o = o) := by
  refine ⟨?_, ?_, ?_⟩
  · induction os with
    | nil => simp [orders_enriched]
    | cons a t ih =>
        show ((joinOne rs a ++ t.bind (joinOne rs)).countP (fun e => e.o == o)) = _
        rw [List.countP_append, countP_joinOne, List.countP_cons]
        by_cases h : a = o
        · subst h
          rw [if_pos rfl]
          have ha : (a == a) = true := by simp
          rw [ha, joinOne_length]
          show max 1 (rs.countP (joinMatch a)) + (orders_enriched t rs).countP (fun e => e.o == a)
              = (t.countP (fun x => x == a) + 1) * max 1 (rs.countP (joinMatch a))
          rw [ih, Nat.succ_mul]
          omega
        · rw [if_neg h]
          have ha : (a == o) = false := by simp [h]
          rw [ha]
          show 0 + (orders_enriched t rs).countP (fun e => e.o == o)
              = (t.countP (fun x => x == o) + 0) * max 1 (rs.countP (joinMatch o))
          rw [ih]
          ring
  · intro h0
    have hf : rs.filter (joinMatch o) = [] := by
      rw [← List.length_eq_zero, ← List.countP_eq_length_filter]
      exact h0
    unfold joinOne
    rw [hf]
  · intro ho
    have hlen := joinOne_length rs o
    cases hj : joinOne rs o with
    | nil => rw [hj] at hlen; simp at hlen; omega
    | cons e t =>
        have he : e ∈ joinOne rs o := by
          rw [hj]
          exact List.mem_cons_self e t
        exact ⟨e, List.mem_bind.mpr ⟨o, ho, he⟩, joinOne_o rs o e he⟩

/-- Example order matched by two duplicate restaurant rows. -/
def wOrder1 : NormOrder :=
  ⟨some 0, some 1800, some 10, some 30, some "DELIVERED", some "r1", some "NYC", 0, some 0⟩

/-- Example order whose restaurant_id matches no restaurant row. -/
def wOrder2 : NormOrder :=
  ⟨some 0, some 1800, some 10, some 30, some "DELIVERED", some "r9", some "NYC", 0, some 0⟩

/-- Example restaurant r1. -/
def wRest : Restaurant := ⟨some "r1", some "A", some "thai"⟩

/-- Duplicate of restaurant r1 with a different name. -/
def wRestDup : Restaurant := ⟨some "r1", some "B", some "thai"⟩

/-- Witness for C4: against a restaurant list holding r1 twice, the order
on r1 fans out to two enriched rows, while the unmatched order survives
exactly once with a null restaurant, and still appears in the output. -/
theorem left_join_multiplicity_witness :
    (orders_enriched [wOrder1, wOrder2] [wRest, wRestDup]).countP
        (fun e => e.o == wOrder1) = 2 ∧
    joinOne [wRest, wRestDup] wOrder2 = [⟨wOrder2, none⟩] ∧
    ∃ e ∈ orders_enriched [wOrder1, wOrder2] [wRest, wRestDup], e.o = wOrder2 := by
  refine ⟨?_, ?_, ?_⟩
  · rw [(left_join_multiplicity [wOrder1, wOrder2] [wRest, wRestDup] wOrder1).1]
    decide
  · exact (left_join_multiplicity [wOrder1, wOrder2] [wRest, wRestDup] wOrder2).2.1
      (by decide)
  · exact (left_join_multiplicity [wOrder1, wOrder2] [wRest, wRestDup] wOrder2).2.2
      (by decide)

/-- The 1/0 conditional only ever produces 0 or 1. -/
theorem sqlWhen10_cases : ∀ c : Option Bool, sqlWhen10 c = 0 ∨ sqlWhen10 c = 1 := by
  decide

/-- Membership in the DELIVERED filter: kept exactly when the status
column is the non-null string DELIVERED. -/
theorem mem_deliveredOnly {l : List EnrichedOrder} {e : EnrichedOrder} :
    e ∈ deliveredOnly l ↔ e ∈ l ∧ e.o.status = some "DELIVERED" := by
  unfold deliveredOnly
  rw [List.mem_filter]
  cases h : e.o.status with
  | none => simp [sqlEqLit, h]
  | some s => simp [sqlEqLit, h]

/-- Membership in a group: the rows of the filtered collection that have
the group's key. -/
theorem mem_groupRows {f : List EnrichedOrder} {k : GKey} {e : EnrichedOrder} :
    e ∈ groupRows f k ↔ e ∈ f ∧ keyOf e = k := by
  unfold groupRows
  rw [List.mem_filter]
  simp

/-- Membership in the gold output: one row per distinct key of the
filtered collection, aggregated over that key's group. -/
theorem mem_daily_rest_metrics {l : List EnrichedOrder} {m : MetricRow} :
    m ∈ daily_rest_metrics l ↔
      ∃ k ∈ ((deliveredOnly l).map keyOf).dedup,
        aggGroup k (groupRows (deliveredOnly l) k) = m := by
  unfold daily_rest_metrics
  rw [List.mem_map]

/-- Every key of the filtered collection has a nonempty group. -/
theorem groupRows_ne_nil {f : List EnrichedOrder} {k : GKey}
    (hk : k ∈ (f.map keyOf).dedup) : groupRows f k ≠ [] := by
  rw [List.mem_dedup] at hk
  rcases List.mem_map.mp hk with ⟨e, he, hke⟩
  intro hnil
  have hmem : e ∈ groupRows f k := mem_groupRows.mpr ⟨he, hke⟩
  rw [hnil] at hmem
  exact List.not_mem_nil e hmem

/-- A sum of 0/1 indicators lies between 0 and the number of rows. -/
theorem sum_zero_one_bounds (l : List Int) (h : ∀ x ∈ l, x = 0 ∨ x = 1) :
    0 ≤ l.sum ∧ l.sum ≤ (l.length : Int) := by
  induction l with
  | nil => simp
  | cons a t ih =>
      obtain ⟨h1, h2⟩ := ih (fun x hx => h x (List.mem_cons_of_mem _ hx))
      have ha := h a (List.mem_cons_self a t)
      simp only [List.sum_cons, List.length_cons]
      rcases ha with rfl | rfl <;> constructor <;> push_cast <;> omega

/-- In any enriched collection produced by the pipeline, the
late_delivery column holds only 0 or 1. -/
theorem enriched_late_delivery_cases (P : ParseFuns) (raws : List RawOrder)
    (rs : List Restaurant) :
    ∀ e ∈ orders_enriched (normalizeOrders P raws) rs,
      e.o.late_delivery = 0 ∨ e.o.late_delivery = 1 := by
  intro e he
  rcases List.mem_bind.mp he with ⟨o, ho, hj⟩
  have heo := joinOne_o rs o e hj
  rcases List.mem_map.mp ho with ⟨r, _, rfl⟩
  rw [heo]
  exact sqlWhen10_cases _

/-- A nonempty integer column sums to a non-null value. -/
theorem sqlSumI_ne_nil {l : List Int} (h : l ≠ []) : sqlSumI l = some l.sum := by
  cases l with
  | nil => exact absurd rfl h
  | cons a t => rfl

/-- Division by a non-zero count is non-null. -/
theorem sqlDiv_some (x : Int) {b : Int} (hb : b ≠ 0) :
    sqlDiv (some x) b = some ((x : ℚ) / (b : ℚ)) := by
  simp [sqlDiv, hb]

/-- C3: every emitted gold row has orders_delivered > 0 and a non-null
late_rate between 0 and 1; its groups are drawn only from rows that
passed the DELIVERED filter, so the division is always well-defined. -/
theorem gold_row_invariant (P : ParseFuns) (raws : List RawOrder)
    (rs : List Restaurant) (m : MetricRow)
    (hm : m ∈ daily_rest_metrics (orders_enriched (normalizeOrders P raws) rs)) :
    0 < m.orders_delivered ∧
    (∃ q : ℚ, m.late_rate = some q ∧ 0 ≤ q ∧ q ≤ 1) ∧
    (∀ e ∈ deliveredOnly (orders_enriched (normalizeOrders P raws) rs),
      e.o.status = some "DELIVERED") := by
  obtain ⟨k, hk, hmk⟩ := mem_daily_rest_metrics.mp hm
  subst hmk
  have hne := groupRows_ne_nil hk
  set f := deliveredOnly (orders_enriched (normalizeOrders P raws) rs) with hf
  set g := groupRows f k with hg
  have hlen : 0 < g.length := List.length_pos.mpr hne
  have hbounds : 0 ≤ (g.map (fun e => e.o.late_delivery)).sum ∧
      (g.map (fun e => e.o.late_delivery)).sum
        ≤ ((g.map (fun e => e.o.late_delivery)).length : Int) := by
    apply sum_zero_one_bounds
    intro x hx
    rcases List.mem_map.mp hx with ⟨e, he, rfl⟩
    have hef : e ∈ f := (mem_groupRows.mp he).1
    have hel : e ∈ orders_enriched (normalizeOrders P raws) rs :=
      (mem_deliveredOnly.mp hef).1
    exact enriched_late_delivery_cases P raws rs e hel
  refine ⟨?_, ?_, ?_⟩
  · show 0 < (g.length : Int)
    exact_mod_cast hlen
  · have hmap_ne : g.map (fun e => e.o.late_delivery) ≠ [] := by
      simp only [ne_eq, List.map_eq_nil]
      exact hne
    have hlr : (aggGroup k g).late_rate
        = sqlDiv (sqlSumI (g.map (fun e => e.o.late_delivery))) (g.length : Int) := rfl
    rw [hlr, sqlSumI_ne_nil hmap_ne, sqlDiv_some]
    · refine ⟨_, rfl, ?_, ?_⟩
      · apply div_nonneg
        · exact_mod_cast hbounds.1
        · positivity
      · rw [div_le_one (by positivity)]
        have h2 := hbounds.2
        rw [List.length_map] at h2
        exact_mod_cast h2
    · exact_mod_cast Nat.pos_iff_ne_zero.mp hlen
  · intro e he
    exact (mem_deliveredOnly.mp he).2

/-- A delivered order enriched by restaurant r1, value 10, on time. -/
def gOrder1 : NormOrder :=
  ⟨some 0, some 1500, some 10, some 30, some "DELIVERED", some "r1", some "NYC", 0, some 0⟩

/-- A delivered order enriched by restaurant r1, value 20, late. -/
def gOrder2 : NormOrder :=
  ⟨some 0, some 2100, some 20, some 30, some "DELIVERED", some "r1", some "NYC", 1, some 0⟩

/-- A two-order enriched collection forming a single group. -/
def exG : List EnrichedOrder := [⟨gOrder1, some wRest⟩, ⟨gOrder2, some wRest⟩]

/-- The key of that group. -/
def exKey : GKey := (some 0, some "r1", some "A", some "thai", some "NYC")

/-- Witness for C3: on the concrete pipeline run over two raw rows, the
single emitted gold row has a positive count and a late_rate in [0, 1]. -/
theorem gold_row_invariant_witness :
    ∃ m ∈ daily_rest_metrics (orders_enriched (normalizeOrders natParse
      [⟨some "43200", some "45060", some "10", some "30", some "DELIVERED",
        some "r1", some "NYC"⟩]) [wRest]),
      0 < m.orders_delivered ∧ ∃ q : ℚ, m.late_rate = some q ∧ 0 ≤ q ∧ q ≤ 1 := by
  refine ⟨aggGroup (some 0, some "r1", some "A", some "thai", some "NYC")
      (groupRows (deliveredOnly (orders_enriched (normalizeOrders natParse
        [⟨some "43200", some "45060", some "10", some "30", some "DELIVERED",
          some "r1", some "NYC"⟩]) [wRest]))
        (some 0, some "r1", some "A", some "thai", some "NYC")), ?_, ?_⟩
  · exact mem_daily_rest_metrics.mpr ⟨_, by decide, rfl⟩
  · have h := gold_row_invariant natParse
      [⟨some "43200", some "45060", some "10", some "30", some "DELIVERED",
        some "r1", some "NYC"⟩] [wRest] _
      (mem_daily_rest_metrics.mpr ⟨(some 0, some "r1", some "A", some "thai", some "NYC"),
        by decide, rfl⟩)
    exact ⟨h.1, h.2.1⟩

/-- C5: for every emitted group, gmv is the null-skipping sum of the
group's order values, late_count is the sum of its 0/1 late_delivery
indicators, and late_rate is exactly late_count divided by
orders_delivered, computed after aggregation. -/
theorem gold_group_aggregates (l : List EnrichedOrder) (k : GKey)
    (hk : k ∈ ((deliveredOnly l).map keyOf).dedup) :
    aggGroup k (groupRows (deliveredOnly l) k) ∈ daily_rest_metrics l ∧
    (aggGroup k (groupRows (deliveredOnly l) k)).orders_delivered
      = ((groupRows (deliveredOnly l) k).length : Int) ∧
    (aggGroup k (groupRows (deliveredOnly l) k)).gmv
      = sqlSumQ ((groupRows (deliveredOnly l) k).map (fun e => e.o.order_value)) ∧
    (aggGroup k (groupRows (deliveredOnly l) k)).late_count
      = some (((groupRows (deliveredOnly l) k).map (fun e => e.o.late_delivery)).sum) ∧
    (aggGroup k (groupRows (deliveredOnly l) k)).late_rate
      = some (((((groupRows (deliveredOnly l) k).map (fun e => e.o.late_delivery)).sum : Int) : ℚ)
          / (((groupRows (deliveredOnly l) k).length : Nat) : ℚ)) := by
  have hne := groupRows_ne_nil hk
  set g := groupRows (deliveredOnly l) k with hg
  have hmap_ne : g.map (fun e => e.o.late_delivery) ≠ [] := by
    simp only [ne_eq, List.map_eq_nil]
    exact hne
  have hlen : 0 < g.length := List.length_pos.mpr hne
  refine ⟨?_, rfl, rfl, sqlSumI_ne_nil hmap_ne, ?_⟩
  · exact mem_daily_rest_metrics.mpr ⟨k, hk, rfl⟩
  · have hlr : (aggGroup k g).late_rate
        = sqlDiv (sqlSumI (g.map (fun e => e.o.late_delivery))) (g.length : Int) := rfl
    rw [hlr, sqlSumI_ne_nil hmap_ne,
      sqlDiv_some _ (by exact_mod_cast Nat.pos_iff_ne_zero.mp hlen)]
    norm_num

/-- Witness for C5: the spec's example group — two delivered orders with
values 10 and 20, one of them late — aggregates to orders_delivered = 2,
gmv = 30, late_count = 1, late_rate = 1/2. -/
theorem gold_group_aggregates_witness :
    (aggGroup exKey (groupRows (deliveredOnly exG) exKey)).orders_delivered = 2 ∧
    (aggGroup exKey (groupRows (deliveredOnly exG) exKey)).gmv = some 30 ∧
    (aggGroup exKey (groupRows (deliveredOnly exG) exKey)).late_count = some 1 ∧
    (aggGroup exKey (groupRows (deliveredOnly exG) exKey)).late_rate
      = some (1 / 2 : ℚ) := by
  have h := gold_group_aggregates exG exKey (by decide)
  refine ⟨?_, ?_, ?_, ?_⟩
  · rw [h.2.1]; decide
  · rw [h.2.2.1]
    norm_num [exG, exKey, groupRows, deliveredOnly, gOrder1, gOrder2, wRest, keyOf,
      sqlEqLit, sqlSumQ, List.filterMap_cons]
  · rw [h.2.2.2.1]; decide
  · rw [h.2.2.2.2]
    norm_num [exG, exKey, groupRows, deliveredOnly, gOrder1, gOrder2, wRest, keyOf,
      sqlEqLit]

/-- Modelled from the spec: the mean of per-row delivery durations in
minutes with null durations excluded from both the numerator and the
denominator; null when no duration is present. -/
def meanExcludingNulls (durs : List (Option Int)) : Option ℚ :=
  match durs.filterMap id with
  | [] => none
  | ds => some ((ds.map (fun s : Int => (s : ℚ) / 60)).sum / (ds.length : ℚ))

/-- The non-null per-row minute values are the non-null second-durations
divided by 60. -/
theorem filterMap_deliveryMins (g : List EnrichedOrder) :
    (g.map deliveryMins).filterMap id
      = ((g.map (fun e => sqlSub e.o.delivered_ts e.o.order_ts)).filterMap id).map
          (fun s : Int => (s : ℚ) / 60) := by
  induction g with
  | nil => rfl
  | cons e t ih =>
      cases hd : sqlSub e.o.delivered_ts e.o.order_ts <;>
        simp [deliveryMins, List.filterMap_cons, hd, ih]

/-- C6: for every emitted group, avg_delivery_mins is the mean of the
per-row durations (delivered_ts − order_ts)/60 in which rows with a null
duration are excluded from both numerator and denominator — not the total
duration divided by the total row count. -/
theorem gold_avg_excludes_null_durations (l : List EnrichedOrder) (k : GKey)
    (hk : k ∈ ((deliveredOnly l).map keyOf).dedup) :
    aggGroup k (groupRows (deliveredOnly l) k) ∈ daily_rest_metrics l ∧
    (aggGroup k (groupRows (deliveredOnly l) k)).avg_delivery_mins
      = meanExcludingNulls ((groupRows (deliveredOnly l) k).map
          (fun e => sqlSub e.o.delivered_ts e.o.order_ts)) := by
  refine ⟨mem_daily_rest_metrics.mpr ⟨k, hk, rfl⟩, ?_⟩
  set g := groupRows (deliveredOnly l) k with hg
  have havg : (aggGroup k g).avg_delivery_mins = sqlAvg (g.map deliveryMins) := rfl
  rw [havg]
  unfold sqlAvg meanExcludingNulls
  rw [filterMap_deliveryMins g]
  cases hds : (g.map (fun e => sqlSub e.o.delivered_ts e.o.order_ts)).filterMap id with
  | nil => rfl
  | cons d ds => simp [List.length_map]

/-- A delivered order in the same group whose delivered_ts is null. -/
def gOrder3 : NormOrder :=
  ⟨some 0, none, some 5, some 30, some "DELIVERED", some "r1", some "NYC", 0, some 0⟩

/-- A group holding one row with a 1500 s duration and one row with a
null duration. -/
def exG6 : List EnrichedOrder := [⟨gOrder1, some wRest⟩, ⟨gOrder3, some wRest⟩]

/-- Witness for C6: with one 1500 s duration and one null duration in the
group, the mean is 25 minutes — the null row is out of both numerator and
denominator (total/500-over-2-rows would give 12.5). -/
theorem gold_avg_excludes_null_durations_witness :
    (aggGroup exKey (groupRows (deliveredOnly exG6) exKey)).avg_delivery_mins
      = some (25 : ℚ) := by
  have h := (gold_avg_excludes_null_durations exG6 exKey (by decide)).2
  rw [h]
  norm_num [exG6, exKey, groupRows, deliveredOnly, gOrder1, gOrder3, wRest, keyOf,
    sqlEqLit, meanExcludingNulls, sqlSub, List.filterMap_cons]

/-- C10: grouping does not drop null keys: every DELIVERED enriched row —
including one with a null dt or with null restaurant fields from an
unmatched left join — yields a gold row whose key fields equal the row's
(possibly null) key fields. -/
theorem groupby_keeps_null_keys (l : List EnrichedOrder) (e : EnrichedOrder)
    (he : e ∈ l) (hs : e.o.status = some "DELIVERED") :
    ∃ m ∈ daily_rest_metrics l,
      m.dt = e.o.dt ∧ m.restaurant_id = e.o.restaurant_id ∧
      m.name = e.r.bind (fun r => r.name) ∧
      m.cuisine = e.r.bind (fun r => r.cuisine) ∧
      m.city = e.o.city := by
  have hef : e ∈ deliveredOnly l := mem_deliveredOnly.mpr ⟨he, hs⟩
  have hk : keyOf e ∈ ((deliveredOnly l).map keyOf).dedup :=
    List.mem_dedup.mpr (List.mem_map_of_mem keyOf hef)
  exact ⟨aggGroup (keyOf e) (groupRows (deliveredOnly l) (keyOf e)),
    mem_daily_rest_metrics.mpr ⟨keyOf e, hk, rfl⟩, rfl, rfl, rfl, rfl, rfl⟩

/-- A delivered order with a null dt, null promised_mins and an
identifier matching no restaurant. -/
def gOrderN : NormOrder :=
  ⟨none, none, some 5, none, some "DELIVERED", some "rX", some "NYC", 0, none⟩

/-- Witness for C10: an unmatched delivered order with a null dt still
produces a gold row, keyed by nulls. -/
theorem groupby_keeps_null_keys_witness :
    ∃ m ∈ daily_rest_metrics [⟨gOrderN, none⟩],
      m.dt = none ∧ m.name = none ∧ m.cuisine = none := by
  obtain ⟨m, hm, h1, _, h3, h4, _⟩ :=
    groupby_keeps_null_keys [⟨gOrderN, none⟩] ⟨gOrderN, none⟩ (by decide) rfl
  exact ⟨m, hm, h1, h3, h4⟩
